import Mathlib

/-!
Verification of the cFosDAB-quantifier core (`jython_ver1.py`) against its
natural-language specification.

The development shallowly embeds the data model and the operations of the
source file:

* `RoiData` / `ProjectImage` mirror the per-ROI dictionaries and the
  `ProjectImage` class (the dictionaries always carry the keys
  `roi_name`, `bregma`, `status`, so they are modelled as a fixed-shape
  record; the defaults that the source applies with `dict.get` at write
  time are applied at parse time, which is observationally the same for
  every reader in the source).
* `natural_sort_key`, `keyLe` and `naturalSortImages` mirror
  `Project._get_natural_sort_key` and the stable Python list sort
  (Timsort is modelled by the stable `List.insertionSort`).
* `splitext` mirrors `os.path.splitext` on plain file names (no path
  separator), and `roi_path` the derived ROI-archive path.
* `sync_roi_db` / `sync_image_status_db` / `sync_project_db` mirror the
  CSV rewrite; a CSV row is modelled as an association list of
  column-name/value pairs, file I/O success as an explicit boolean.
* `verify_and_create_dirs`, `load_project_db`, `scan_for_new_images` and
  `project_init` mirror `Project.__init__`.  Exceptions are modelled by
  `Except`; the Python 2 distinction between `IOError` (raised by
  `open`) and `OSError` (raised by `os.makedirs`) is kept, because
  `except OSError` does not catch `IOError` under Jython 2.
* `run_ilastik_classification` mirrors the two-tier ilastik cache, with
  the on-disk artifacts and the external classifier outputs made
  explicit.
* `roi_pass`, `doInBackground` and `done_append` mirror the
  `QuantificationWorker` batch loop, with external effects (image open,
  ROI lookup, crop, classifier runs, measurement values) provided by
  per-ROI oracles.
-/

/-! ### ROI records and image entries -/

/-- One ROI dictionary: keys `roi_name`, `bregma`, `status`. -/
structure RoiData where
  roi_name : String
  bregma : String
  status : String
  deriving DecidableEq

/-- In-memory image entry (`ProjectImage`): its file name, its ROI
dictionaries in order, and its status string.  `full_path` and
`roi_path` are derived from `filename` and are modelled as functions. -/
structure ProjectImage where
  filename : String
  rois : List RoiData
  status : String
  deriving DecidableEq

/-- `ProjectImage.__init__`: fresh entry, no ROIs, status `"New"`. -/
def mkProjectImage (filename : String) : ProjectImage :=
  ⟨filename, [], "New"⟩

/-! ### `os.path.splitext` and derived paths -/

/-- Index of the last `'.'` in `l`, if any. -/
def lastDotIdx (l : List Char) : Option Nat :=
  match l.reverse.findIdx? (fun c => c = '.') with
  | none => none
  | some k => some (l.length - 1 - k)

/-- `os.path.splitext` on a plain file name (no directory separator):
split at the last dot, unless every character before that dot is itself
a dot (then there is no extension). -/
def splitextChars (l : List Char) : List Char × List Char :=
  match lastDotIdx l with
  | none => (l, [])
  | some i =>
    if (l.take i).all (fun c => c = '.') then (l, [])
    else (l.take i, l.drop i)

def splitext (s : String) : String × String :=
  ((splitextChars s.data).1.asString, (splitextChars s.data).2.asString)

/-- The `base_name` computed in `ProjectImage.__init__`. -/
def image_stem (filename : String) : String := (splitext filename).1

/-- `self.roi_path = os.path.join(project_path, "ROI_Files", base_name + "_ROIs.zip")`. -/
def roi_path (project_path filename : String) : String :=
  project_path ++ "/ROI_Files/" ++ image_stem filename ++ "_ROIs.zip"

/-- `str.lower()` (the file names here are ASCII). -/
def lowerChars (s : String) : List Char :=
  s.data.map Char.toLower

/-- The extension filter of `Project._scan_for_new_images`:
`f.lower().endswith(('.tif', '.tiff', 'jpg', 'jpeg'))` (note the missing
dots on the jpeg alternatives, exactly as in the source). -/
def recognizedImage (f : String) : Bool :=
  [".tif", ".tiff", "jpg", "jpeg"].any (fun e => e.data.isSuffixOf (lowerChars f))

/-! ### The natural sort key -/

/-- Value of a nonempty all-digit character list. -/
def pyDigits (l : List Char) : Option Nat :=
  if l = [] then none
  else if l.all Char.isDigit then
    some (l.foldl (fun n c => 10 * n + (c.toNat - '0'.toNat)) 0)
  else none

/-- Python 2 `int(str)`: optional surrounding whitespace, optional sign,
a nonempty run of digits; anything else raises `ValueError` (`none`). -/
def pyInt (l : List Char) : Option Int :=
  let t := ((l.dropWhile Char.isWhitespace).reverse.dropWhile Char.isWhitespace).reverse
  match t with
  | '-' :: rest => (pyDigits rest).map (fun n => -(n : Int))
  | '+' :: rest => (pyDigits rest).map (fun n => (n : Int))
  | _ => (pyDigits t).map (fun n => (n : Int))

/-- `Project._get_natural_sort_key`:
`int(filename.split('_')[0])` — the characters before the first
underscore (the whole name when there is none) parsed as an integer —
and `float('inf')` (here `none`) when that raises `ValueError` or
`IndexError`. -/
def natural_sort_key (filename : String) : Option Int :=
  pyInt (filename.data.takeWhile (fun c => c ≠ '_'))

/-- Comparison on sort keys, `none` playing the role of `float('inf')`. -/
def keyLe (a b : Option Int) : Bool :=
  match a, b with
  | _, none => true
  | none, some _ => false
  | some x, some y => x ≤ y

/-- The key order on image entries used by `self.images.sort(key=...)`. -/
def imageLe (a b : ProjectImage) : Prop :=
  keyLe (natural_sort_key a.filename) (natural_sort_key b.filename) = true

instance : DecidableRel imageLe :=
  fun a b =>
    inferInstanceAs (Decidable (keyLe (natural_sort_key a.filename) (natural_sort_key b.filename) = true))

theorem keyLe_total (a b : Option Int) : keyLe a b = true ∨ keyLe b a = true := by
  cases a <;> cases b <;> simp [keyLe] <;> omega

theorem keyLe_trans {a b c : Option Int} (h1 : keyLe a b = true) (h2 : keyLe b c = true) :
    keyLe a c = true := by
  cases a <;> cases b <;> cases c <;> simp_all [keyLe] <;> omega

theorem keyLe_refl_of_eq {a b : Option Int} (h : a = b) : keyLe a b = true := by
  subst h; cases a <;> simp [keyLe]

instance : IsTotal ProjectImage imageLe :=
  ⟨fun a b => keyLe_total _ _⟩

instance : IsTrans ProjectImage imageLe :=
  ⟨fun _ _ _ h1 h2 => keyLe_trans h1 h2⟩

/-- `self.images.sort(key=self._get_natural_sort_key)`: Python list sort
is stable; modelled by the stable `List.insertionSort` on the key order. -/
def naturalSortImages (l : List ProjectImage) : List ProjectImage :=
  List.insertionSort imageLe l

/-- Lexicographic comparison of character lists by code point —
Python 2 string comparison for the ASCII file names used here. -/
def charListLe : List Char → List Char → Bool
  | [], _ => true
  | _ :: _, [] => false
  | c :: cs, d :: ds =>
    if c.toNat = d.toNat then charListLe cs ds
    else decide (c.toNat < d.toNat)

/-- The filename order used by `sorted(images_map.values(), key=lambda img: img.filename)`. -/
def filenameLe (a b : ProjectImage) : Prop :=
  charListLe a.filename.data b.filename.data = true

instance : DecidableRel filenameLe :=
  fun a b => inferInstanceAs (Decidable (charListLe a.filename.data b.filename.data = true))

def filenameSortImages (l : List ProjectImage) : List ProjectImage :=
  List.insertionSort filenameLe l

/-- `sorted(os.listdir(...))`. -/
def sortStrings (l : List String) : List String :=
  List.insertionSort (fun a b : String => charListLe a.data b.data = true) l

/-! ### Sync: rewriting the two CSV tables -/

/-- One row of `Roi_DB.csv` as written by `Project._sync_roi_db`:
the image file name together with the ROI dictionary (the source writes
the four columns `filename, roi_name, bregma, status`; the `dict.get`
defaults never fire on the fixed-shape records). -/
def sync_roi_rows (images : List ProjectImage) : List (String × RoiData) :=
  images.flatMap (fun im =>
    if im.rois = [] then []
    else im.rois.map (fun r => (im.filename, r)))

/-- Rows of `Image_Status_DB.csv` as written by `Project._sync_image_status_db`. -/
def sync_status_rows (images : List ProjectImage) : List (String × String) :=
  images.map (fun im => (im.filename, im.status))

/-- `Project._sync_roi_db`: full rewrite of the ROI table; `writeOk`
says whether the file write raised `IOError`.  Returns the success flag
and the table contents actually on disk afterwards (`none` = the write
failed and the log got an error line). -/
def sync_roi_db (images : List ProjectImage) (writeOk : Bool) :
    Bool × Option (List (String × RoiData)) :=
  if writeOk then (true, some (sync_roi_rows images)) else (false, none)

/-- `Project._sync_image_status_db`. -/
def sync_image_status_db (images : List ProjectImage) (writeOk : Bool) :
    Bool × Option (List (String × String)) :=
  if writeOk then (true, some (sync_status_rows images)) else (false, none)

/-- `Project.sync_project_db`: runs both table writes, returns the
conjunction of their success flags. -/
def sync_project_db (images : List ProjectImage) (roiWriteOk statusWriteOk : Bool) : Bool :=
  (sync_roi_db images roiWriteOk).1 && (sync_image_status_db images statusWriteOk).1

/-! ### Loading a project (`Project.__init__`) -/

/-- The Python 2 exception classes that matter here.  Under Jython 2,
`IOError` (raised by `open`) and `OSError` (raised by `os.makedirs`)
are unrelated classes: `except OSError` does not catch `IOError`. -/
inductive PyErr where
  | ioError
  | osError
  | keyError
  deriving DecidableEq

/-- The keys of `Project._discover_paths`, in its fixed insertion order. -/
inductive PathKey where
  | images
  | rois
  | processed
  | probabilities
  | temp
  | roi_db
  | image_status_db
  | results_db
  deriving DecidableEq

def pathKeys : List PathKey :=
  [.images, .rois, .processed, .probabilities, .temp, .roi_db, .image_status_db, .results_db]

/-- The keys whose path ends in `.csv`. -/
def isCsvKey : PathKey → Bool
  | .roi_db => true
  | .image_status_db => true
  | .results_db => true
  | _ => false

/-- Filesystem behaviour seen by `Project._verify_and_create_dirs`:
whether each project path already exists, and whether creating it would
fail (for a CSV path the failure is an `IOError` from `open`, for a
directory an `OSError` from `os.makedirs`). -/
structure FsOracle where
  pathExists : PathKey → Bool
  createFails : PathKey → Bool

/-- One iteration of the loop in `Project._verify_and_create_dirs`:
missing CSV files are written with their headers (`open` may raise
`IOError`, which `except OSError` does not catch, so it propagates);
missing directories are created (`os.makedirs` may raise `OSError`,
which is caught and logged). -/
def create_one_path (o : FsOracle) (k : PathKey) (log : List String) :
    Except PyErr (List String) :=
  if o.pathExists k then .ok log
  else if isCsvKey k then
    if o.createFails k then .error .ioError
    else .ok (log ++ ["Created missing project database"])
  else
    if o.createFails k then .ok (log ++ ["Error creating directory"])
    else .ok (log ++ ["Created missing project directory"])

def verify_and_create_dirs_aux (o : FsOracle) :
    List PathKey → List String → Except PyErr (List String)
  | [], log => .ok log
  | k :: ks, log =>
    match create_one_path o k log with
    | .error e => .error e
    | .ok log1 => verify_and_create_dirs_aux o ks log1

/-- `Project._verify_and_create_dirs`. -/
def verify_and_create_dirs (o : FsOracle) : Except PyErr (List String) :=
  verify_and_create_dirs_aux o pathKeys []

/-- A raw CSV row as produced by `csv.DictReader`: an association list
from column name to cell value. -/
abbrev RawRow : Type := List (String × String)

def rowGet (row : RawRow) (key : String) : Option String :=
  (row.find? (fun p => p.1 = key)).map (fun p => p.2)

/-- `row['filename']`: raises `KeyError` when the key is absent. -/
def rowFilename (row : RawRow) : Except PyErr String :=
  match rowGet row "filename" with
  | none => .error .keyError
  | some v => .ok v

/-- Parse one status row: `row['filename']` and `row.get('status', 'New')`. -/
def parse_status_row (row : RawRow) : Except PyErr (String × String) :=
  match rowFilename row with
  | .error e => .error e
  | .ok fn => .ok (fn, (rowGet row "status").getD "New")

/-- Parse one ROI row: `row['filename']` plus the stored dictionary.
The source stores the raw row and applies the defaults
`'N/A'/'N/A'/'Pending'` with `dict.get` at every later read; applying
them once at parse time is observationally identical. -/
def parse_roi_row (row : RawRow) : Except PyErr (String × RoiData) :=
  match rowFilename row with
  | .error e => .error e
  | .ok fn =>
    .ok (fn, ⟨(rowGet row "roi_name").getD "N/A",
              (rowGet row "bregma").getD "N/A",
              (rowGet row "status").getD "Pending"⟩)

def parseRows {α : Type} (parse : RawRow → Except PyErr α) :
    List RawRow → Except PyErr (List α)
  | [] => .ok []
  | row :: rest =>
    match parse row with
    | .error e => .error e
    | .ok a =>
      match parseRows parse rest with
      | .error e => .error e
      | .ok as => .ok (a :: as)

/-- Body of the status-table loop in `Project._load_project_db`:
create the entry when absent, then set its status. -/
def apply_status_row (m : List ProjectImage) (row : String × String) : List ProjectImage :=
  if m.any (fun im => im.filename = row.1) then
    m.map (fun im => if im.filename = row.1 then { im with status := row.2 } else im)
  else m ++ [{ mkProjectImage row.1 with status := row.2 }]

/-- Body of the ROI-table loop in `Project._load_project_db`:
create the entry when absent, then append the ROI dictionary. -/
def apply_roi_row (m : List ProjectImage) (row : String × RoiData) : List ProjectImage :=
  if m.any (fun im => im.filename = row.1) then
    m.map (fun im => if im.filename = row.1 then { im with rois := im.rois ++ [row.2] } else im)
  else m ++ [{ mkProjectImage row.1 with rois := [row.2] }]

/-- The on-disk ROI archives: for an image stem, the ROI names stored in
`{stem}_ROIs.zip`, or `none` when no such file exists. -/
def ZipStore : Type := String → Option (List String)

/-- `ProjectImage.populate_rois_from_zip`: when the archive exists and
the in-memory ROI list is empty, fill it from the archive names with
bregma `'N/A'` and status `'From File'`. -/
def populate_rois_from_zip (zip : ZipStore) (im : ProjectImage) : ProjectImage :=
  match zip (image_stem im.filename) with
  | none => im
  | some names =>
    if im.rois = [] then
      { im with rois := names.map (fun n => ⟨n, "N/A", "From File"⟩) }
    else im

/-- `Project._load_project_db` after the two tables have been parsed:
fold the status rows, fold the ROI rows, backfill from the archives,
sort by plain filename. -/
def load_project_db (statusRows : List (String × String))
    (roiRows : List (String × RoiData)) (zip : ZipStore) : List ProjectImage :=
  filenameSortImages
    ((roiRows.foldl apply_roi_row (statusRows.foldl apply_status_row [])).map
      (populate_rois_from_zip zip))

/-- `Project._scan_for_new_images`: every recognized file of the images
directory (in sorted order) that is not yet present is appended as
`Untracked`, after an archive backfill attempt. -/
def scan_for_new_images (zip : ZipStore) (files : List String)
    (m : List ProjectImage) : List ProjectImage :=
  let existing := m.map (fun im => im.filename)
  m ++ ((sortStrings files).filter
          (fun f => recognizedImage f && !(existing.contains f))).map
        (fun f => populate_rois_from_zip zip { mkProjectImage f with status := "Untracked" })

/-- `Project.__init__` (= the spec `load(root_dir)`), over the modelled
environment: verify/create the project paths, parse both CSV tables,
build and reconcile the image list, scan the images directory, and sort
by the natural key. -/
def project_init (o : FsOracle) (rawStatusRows rawRoiRows : List RawRow)
    (zip : ZipStore) (files : List String) : Except PyErr (List ProjectImage) :=
  match verify_and_create_dirs o with
  | .error e => .error e
  | .ok _ =>
    match parseRows parse_status_row rawStatusRows with
    | .error e => .error e
    | .ok statusRows =>
      match parseRows parse_roi_row rawRoiRows with
      | .error e => .error e
      | .ok roiRows =>
        .ok (naturalSortImages
              (scan_for_new_images zip files (load_project_db statusRows roiRows zip)))

/-- Rendering of one status row by `csv.DictWriter` in
`Project._sync_image_status_db`. -/
def render_status_row (row : String × String) : RawRow :=
  [("filename", row.1), ("status", row.2)]

/-- Rendering of one ROI row by `csv.DictWriter` in `Project._sync_roi_db`. -/
def render_roi_row (row : String × RoiData) : RawRow :=
  [("filename", row.1), ("roi_name", row.2.roi_name),
   ("bregma", row.2.bregma), ("status", row.2.status)]

/-- An oracle for a fully initialized project directory: every project
path exists (which is the state right after any successful load). -/
def allExistsOracle : FsOracle :=
  ⟨fun _ => true, fun _ => false⟩

/-! ### The two-tier ilastik classification cache
(`QuantificationWorker._run_ilastik_classification`) -/

/-- The on-disk state of the two cache tiers for one
`{image_stem}_{roi_name}` base name: the contents of
`{base}_probabilities.tif` (pixel tier) and `{base}_objects.tif`
(object tier); `none` = the file does not exist.  Artifact contents are
abstracted to natural numbers. -/
structure CacheState where
  pixel : Option Nat
  object : Option Nat
  deriving DecidableEq

/-- What the two external ilastik stages would produce when invoked:
the image left on `IJ.getImage()` after the pixel-classification and the
object-classification macro, `none` = no output (the source then raises). -/
structure StageOracle where
  pixelOut : Option Nat
  objectOut : Option Nat
  deriving DecidableEq

deriving instance DecidableEq for Except

/-- Outcome of one cache resolution: the returned `result_imp` (or the
raised error message), the cache tiers on disk afterwards, and how often
each external stage was invoked. -/
structure ResolveOut where
  result : Except String Nat
  state : CacheState
  pixelCalls : Nat
  objectCalls : Nat
  deriving DecidableEq

/-- `QuantificationWorker._run_ilastik_classification`:
if the object-tier file exists, open and return it; else if the
pixel-tier file exists, run only the object stage and save its output;
else run the pixel stage, save, then the object stage, save.  A stage
with no output raises (after the pixel output, if any, was saved). -/
def run_ilastik_classification (st : CacheState) (orc : StageOracle) : ResolveOut :=
  match st.object with
  | some o => ⟨.ok o, st, 0, 0⟩
  | none =>
    match st.pixel with
    | some _ =>
      match orc.objectOut with
      | some o => ⟨.ok o, { st with object := some o }, 0, 1⟩
      | none => ⟨.error "No probability map output from ilastik object classifier.", st, 0, 1⟩
    | none =>
      match orc.pixelOut with
      | none => ⟨.error "No probability map output from ilastik pixel classifier.", st, 1, 0⟩
      | some p =>
        match orc.objectOut with
        | some o => ⟨.ok o, ⟨some p, some o⟩, 1, 1⟩
        | none => ⟨.error "No probability map output from ilastik object classifier.",
                   ⟨some p, none⟩, 1, 1⟩

/-! ### The batch worker (`QuantificationWorker`) -/

/-- External behaviour of one per-ROI pass: whether the ROI name is
found in the archive, whether the duplicate/crop/save of the temporary
cropped image succeeds, the cache tiers on disk for this (image, ROI)
pair, the external stage outputs, the measured values, and whether the
`os.remove` of the temporary file in the `finally` clause succeeds. -/
structure RoiEnv where
  roiFound : Bool
  cropOk : Bool
  cache : CacheState
  stages : StageOracle
  roiArea : Nat
  cellCount : Nat
  totalCellArea : Nat
  removeOk : Bool
  deriving DecidableEq

/-- One collected result dictionary (the source key really is
`brema_value`, with the misspelling). -/
structure ResultRecord where
  filename : String
  roi_name : String
  roi_area : Nat
  brema_value : String
  cell_count : Nat
  total_cell_area : Nat
  deriving DecidableEq

/-- One selected image as the worker sees it: the entry data plus the
environment of each of its ROIs (`openOk` = `IJ.openImage` succeeds). -/
structure WorkerImage where
  filename : String
  openOk : Bool
  rois : List (RoiData × RoiEnv)
  deriving DecidableEq

/-- Outcome of the `try` body of one per-ROI pass: the result record or
the caught error message, whether the temporary cropped file exists at
that point, and the external stage invocation counts. -/
structure RoiPassOut where
  result : Except String ResultRecord
  tempExists : Bool
  pixelCalls : Nat
  objectCalls : Nat
  deriving DecidableEq

/-- The `try` body of the per-ROI loop in
`QuantificationWorker.doInBackground`: look the ROI up in the archive
(raise when absent, before any temporary file exists), crop and save the
temporary cropped image (its failure also raises), then resolve the
classification cache and build the result dictionary. -/
def roi_pass_body (filename : String) (r : RoiData) (e : RoiEnv) : RoiPassOut :=
  if !e.roiFound then
    ⟨.error ("Could not find ROI " ++ r.roi_name ++ " in the ROI file."), false, 0, 0⟩
  else if !e.cropOk then
    ⟨.error "Failed to crop and save the temporary image.", false, 0, 0⟩
  else
    let res := run_ilastik_classification e.cache e.stages
    match res.result with
    | .error m => ⟨.error m, true, res.pixelCalls, res.objectCalls⟩
    | .ok _ =>
      ⟨.ok ⟨filename, r.roi_name, e.roiArea, r.bregma, e.cellCount, e.totalCellArea⟩,
       true, res.pixelCalls, res.objectCalls⟩

/-- The `finally` cleanup:
`if temp_cropped_path and os.path.exists(...):` then
`try: os.remove(...)` `except: IJ.log("Warning: Could not delete ...")`.
When the file exists and `os.remove` succeeds it no longer exists;
when `os.remove` itself fails the source only logs a warning and the
file remains on disk. -/
def cleanup_temp (removeOk tempExists : Bool) : Bool :=
  if tempExists then
    (if removeOk then false else tempExists)
  else tempExists

/-- One whole per-ROI pass: the `try` body followed by the scoped
`finally` cleanup of the temporary cropped image. -/
def roi_pass (filename : String) (r : RoiData) (e : RoiEnv) : RoiPassOut :=
  let o := roi_pass_body filename r e
  { o with tempExists := cleanup_temp e.removeOk o.tempExists }

/-- The log line of the `except` clause of the per-ROI loop. -/
def log_error_entry (roi_name filename msg : String) : String :=
  "ERROR processing ROI " ++ roi_name ++ " in " ++ filename ++ ": " ++ msg

/-- Observable state accumulated by the worker. -/
structure WorkerState where
  results : List ResultRecord
  log : List String
  roiCounter : Nat
  progress : List Nat
  opens : Nat
  exports : List String
  pixelCalls : Nat
  objectCalls : Nat
  tempsLeft : Nat
  deriving DecidableEq

def initWorkerState : WorkerState :=
  ⟨[], [], 0, [], 0, [], 0, 0, 0⟩

/-- One iteration of the inner (per-ROI) loop: run the pass; on success
append the result, on error append the log line and continue; then the
`finally` block bumps `roi_counter` and posts the progress value
`int(100.0 * roi_counter / total_rois)`. -/
def worker_step_roi (filename : String) (total : Nat) (st : WorkerState)
    (p : RoiData × RoiEnv) : WorkerState :=
  let o := roi_pass filename p.1 p.2
  let st1 :=
    match o.result with
    | .ok rec => { st with results := st.results ++ [rec] }
    | .error m => { st with log := st.log ++ [log_error_entry p.1.roi_name filename m] }
  { st1 with
    roiCounter := st1.roiCounter + 1,
    progress := st1.progress ++ [100 * (st1.roiCounter + 1) / total],
    pixelCalls := st1.pixelCalls + o.pixelCalls,
    objectCalls := st1.objectCalls + o.objectCalls,
    tempsLeft := st1.tempsLeft + (if o.tempExists then 1 else 0) }

/-- The inner loop over one image entry's ROI list, with the cooperative
cancellation flag checked before each pass (modelled as a function of
the number of ROI boundaries passed so far). -/
def worker_run_rois (cancelled : Nat → Bool) (total : Nat) (filename : String) :
    List (RoiData × RoiEnv) → WorkerState → WorkerState
  | [], st => st
  | p :: ps, st =>
    if cancelled st.roiCounter then st
    else worker_run_rois cancelled total filename ps (worker_step_roi filename total st p)

/-- The outer loop over the selected images: check cancellation, open
the image (failure raises out of `doInBackground`), run the ROI loop,
then export the (possibly overlay-flattened) image as
`{stem}_processed.tiff`. -/
def worker_run_images (cancelled : Nat → Bool) (total : Nat) :
    List WorkerImage → WorkerState → WorkerState × Option String
  | [], st => (st, none)
  | img :: rest, st =>
    if cancelled st.roiCounter then (st, none)
    else
      let st1 := { st with opens := st.opens + 1 }
      if !img.openOk then
        (st1, some ("ERROR: Failed to open original image: " ++ img.filename))
      else
        let st2 := worker_run_rois cancelled total img.filename img.rois st1
        let st3 := { st2 with
          exports := st2.exports ++ [image_stem img.filename ++ "_processed.tiff"] }
        worker_run_images cancelled total rest st3

/-- `total_rois = sum(len(img.rois) for img in images_to_process)`. -/
def totalRois (images : List WorkerImage) : Nat :=
  (images.map (fun img => img.rois.length)).sum

/-- `QuantificationWorker.doInBackground`: the early return when there
is nothing to do, otherwise the image loop; the second component is the
status (`.error` = an exception propagated out of the background task). -/
def doInBackground (images : List WorkerImage) (cancelled : Nat → Bool) :
    WorkerState × Except String String :=
  if totalRois images = 0 then (initWorkerState, .ok "No ROIs to process.")
  else
    match worker_run_images cancelled (totalRois images) images initWorkerState with
    | (st, some err) => (st, .error err)
    | (st, none) =>
      (st, .ok ("Batch processing complete. " ++ toString st.roiCounter ++ " ROIs processed."))

/-! ### Persisting the results (`QuantificationWorker.done`) -/

/-- The results-table header written by `QuantificationWorker.done` and
by `Project._verify_and_create_dirs` (the source spells the fourth
column `brema_value`). -/
def resultsDbHeaders : List String :=
  ["filename", "roi_name", "roi_area", "brema_value", "cell_count", "total_cell_area"]

/-- Rendering of one result record by `csv.DictWriter`. -/
def render_result_row (r : ResultRecord) : List String :=
  [r.filename, r.roi_name, toString r.roi_area, r.brema_value,
   toString r.cell_count, toString r.total_cell_area]

/-- `QuantificationWorker.done`, results-persistence part: when any
results were collected, open the results table in append mode and write
the header only when the file is new or empty, then all collected rows
in one `writerows` call.  `old` is the file content (as rows) before the
append; `fileExists` is `os.path.isfile` on it. -/
def done_append (allResults : List ResultRecord) (fileExists : Bool)
    (old : List (List String)) : List (List String) :=
  if allResults = [] then old
  else
    old ++ (if !fileExists || old = [] then [resultsDbHeaders] else [])
        ++ allResults.map render_result_row

/-! ## Claims -/

/-! ### C1: three-tier cache resolution -/

/-- A successful cache resolution is fully characterized by the tier
files present beforehand. -/
theorem run_ilastik_ok_iff (st : CacheState) (orc : StageOracle) :
    (run_ilastik_classification st orc).result.isOk = true ↔
      (st.object.isSome ∨
       (st.pixel.isSome ∧ orc.objectOut.isSome) ∨
       (orc.pixelOut.isSome ∧ orc.objectOut.isSome)) := by
  obtain ⟨pix, obj⟩ := st
  obtain ⟨po, oo⟩ := orc
  cases obj <;> cases pix <;> cases po <;> cases oo <;>
    simp [run_ilastik_classification, Except.isOk, Except.toBool]

/-- C1 (amended): the three-tier rule of
`QuantificationWorker._run_ilastik_classification`.  If the object-tier
file exists it is loaded and returned with no stage invocation and the
disk unchanged; else if the pixel-tier file exists only the object stage
runs and its output is cached; else the pixel stage runs and is cached,
then the object stage runs and is cached.  Resolving twice performs at
most one invocation of each stage in total, and both tiers are populated
after any successful resolution that was not already fully cached (a
fully cached resolution leaves the disk unchanged, so it does not
populate a missing pixel tier). -/
theorem C1_cache_three_tier (st : CacheState) (orc : StageOracle) :
    (∀ o, st.object = some o →
        run_ilastik_classification st orc = ⟨.ok o, st, 0, 0⟩) ∧
    (st.object = none → st.pixel.isSome = true →
        (run_ilastik_classification st orc).pixelCalls = 0 ∧
        (run_ilastik_classification st orc).objectCalls = 1 ∧
        (∀ r, (run_ilastik_classification st orc).result = .ok r →
          (run_ilastik_classification st orc).state = ⟨st.pixel, some r⟩)) ∧
    (st.object = none → st.pixel = none →
        (run_ilastik_classification st orc).pixelCalls = 1 ∧
        (∀ r, (run_ilastik_classification st orc).result = .ok r →
          (run_ilastik_classification st orc).objectCalls = 1 ∧
          (run_ilastik_classification st orc).state = ⟨orc.pixelOut, some r⟩)) ∧
    ((run_ilastik_classification st orc).result.isOk = true →
        ∀ orc2 : StageOracle,
          (run_ilastik_classification st orc).pixelCalls +
            (run_ilastik_classification (run_ilastik_classification st orc).state orc2).pixelCalls ≤ 1 ∧
          (run_ilastik_classification st orc).objectCalls +
            (run_ilastik_classification (run_ilastik_classification st orc).state orc2).objectCalls ≤ 1) ∧
    ((run_ilastik_classification st orc).result.isOk = true → st.object = none →
        (run_ilastik_classification st orc).state.pixel.isSome = true ∧
        (run_ilastik_classification st orc).state.object.isSome = true) := by
  obtain ⟨pix, obj⟩ := st
  obtain ⟨po, oo⟩ := orc
  cases obj <;> cases pix <;> cases po <;> cases oo <;>
    simp [run_ilastik_classification, Except.isOk, Except.toBool]

/-- Witness for C1 at concrete inputs: a partially cached state invokes
only the object stage and fills the object tier; a cold state invokes
the pixel stage. -/
theorem C1_witness :
    (run_ilastik_classification ⟨some 3, some 7⟩ ⟨none, none⟩ = ⟨.ok 7, ⟨some 3, some 7⟩, 0, 0⟩) ∧
    (run_ilastik_classification ⟨some 3, none⟩ ⟨none, some 9⟩).objectCalls = 1 ∧
    (run_ilastik_classification ⟨none, none⟩ ⟨some 4, some 9⟩).pixelCalls = 1 := by
  refine ⟨?_, ?_, ?_⟩
  · exact (C1_cache_three_tier ⟨some 3, some 7⟩ ⟨none, none⟩).1 7 rfl
  · exact ((C1_cache_three_tier ⟨some 3, none⟩ ⟨none, some 9⟩).2.1 rfl rfl).2.1
  · exact ((C1_cache_three_tier ⟨none, none⟩ ⟨some 4, some 9⟩).2.2.1 rfl rfl).1

/-- Counterexample to C1 as stated: when the object-tier file exists but
the pixel-tier file does not, the resolution succeeds yet the pixel tier
is still not populated on disk afterwards — so it is not the case that
"both tiers are populated on disk after any successful resolution". -/
theorem C1_counterexample :
    (run_ilastik_classification ⟨none, some 7⟩ ⟨none, none⟩).result.isOk = true ∧
    (run_ilastik_classification ⟨none, some 7⟩ ⟨none, none⟩).pixelCalls = 0 ∧
    (run_ilastik_classification ⟨none, some 7⟩ ⟨none, none⟩).objectCalls = 0 ∧
    (run_ilastik_classification ⟨none, some 7⟩ ⟨none, none⟩).state.pixel = none := by
  decide

/-! ### C4: sync rewrites both tables -/

/-- The `continue` over images with an empty ROI list drops nothing:
the ROI table holds exactly one row per ROI record. -/
theorem sync_roi_rows_eq (images : List ProjectImage) :
    sync_roi_rows images =
      images.flatMap (fun im => im.rois.map (fun r => (im.filename, r))) := by
  induction images with
  | nil => rfl
  | cons im rest ih =>
    by_cases h : im.rois = [] <;>
      simp [sync_roi_rows, List.flatMap_cons, h] <;>
      simpa [sync_roi_rows] using ih

/-- C4: `sync_project_db` returns the conjunction of the two table
writes; a successful ROI-table write holds exactly one row per ROI
record (an image with an empty ROI list contributes nothing, which is
what the `continue` in the source does), and a successful status-table
write holds exactly one row per image entry. -/
theorem C4_sync_rewrites (images : List ProjectImage) (roiWriteOk statusWriteOk : Bool) :
    sync_project_db images roiWriteOk statusWriteOk = (roiWriteOk && statusWriteOk) ∧
    sync_roi_db images roiWriteOk =
      (roiWriteOk, if roiWriteOk then some (sync_roi_rows images) else none) ∧
    sync_image_status_db images statusWriteOk =
      (statusWriteOk, if statusWriteOk then some (sync_status_rows images) else none) ∧
    sync_roi_rows images =
      images.flatMap (fun im => im.rois.map (fun r => (im.filename, r))) ∧
    (sync_roi_rows images).length = (images.map (fun im => im.rois.length)).sum ∧
    (sync_status_rows images).length = images.length := by
  refine ⟨?_, ?_, ?_, ?_, ?_, ?_⟩
  · cases roiWriteOk <;> cases statusWriteOk <;>
      simp [sync_project_db, sync_roi_db, sync_image_status_db]
  · cases roiWriteOk <;> simp [sync_roi_db]
  · cases statusWriteOk <;> simp [sync_image_status_db]
  · exact sync_roi_rows_eq images
  · rw [sync_roi_rows_eq, List.length_flatMap]
    simp [Function.comp_def]
  · simp [sync_status_rows]

/-! ### C5: natural-key ordering -/

/-- Inserting an element into a list does not disturb the relative
order of the elements of any one key class, provided equal keys compare
`≤` (so the element lands before the first equal-keyed element coming
later, i.e. the sort is stable for key orders). -/
theorem filter_orderedInsert_key {α K : Type} [DecidableEq K] (k : α → K)
    (r : α → α → Prop) [DecidableRel r] (hrefl : ∀ a b, k a = k b → r a b)
    (c : K) (a : α) (l : List α) :
    (List.orderedInsert r a l).filter (fun x => decide (k x = c)) =
      if k a = c then a :: l.filter (fun x => decide (k x = c))
      else l.filter (fun x => decide (k x = c)) := by
  induction l with
  | nil => by_cases h : k a = c <;> simp [List.orderedInsert, h]
  | cons b l ih =>
    by_cases hr : r a b
    · by_cases h : k a = c <;> simp [List.orderedInsert, hr, h]
    · have hne : k a ≠ k b := fun he => hr (hrefl a b he)
      by_cases h : k a = c
      · have hb : ¬ (k b = c) := fun hb => hne (h.trans hb.symm)
        simp [List.orderedInsert, hr, h, hb, ih]
      · by_cases hb : k b = c <;> simp [List.orderedInsert, hr, h, hb, ih]

/-- Stability of `List.insertionSort` for key orders: each key class
keeps its original relative order. -/
theorem filter_insertionSort_key {α K : Type} [DecidableEq K] (k : α → K)
    (r : α → α → Prop) [DecidableRel r] (hrefl : ∀ a b, k a = k b → r a b)
    (c : K) (l : List α) :
    (List.insertionSort r l).filter (fun x => decide (k x = c)) =
      l.filter (fun x => decide (k x = c)) := by
  induction l with
  | nil => rfl
  | cons a l ih =>
    rw [List.insertionSort, filter_orderedInsert_key k r hrefl, ih]
    by_cases h : k a = c <;> simp [h]

/-- C5: the project-wide ordering produced by
`self.images.sort(key=self._get_natural_sort_key)` is a permutation of
the input, is totally ordered by the key comparison (`none` acting as
`float('inf')`), preserves the relative order inside every key class
(in particular among the images without a parseable leading integer,
which share the infinite key), never places an image without a
parseable leading-integer prefix before one with such a prefix, and
orders the images with parseable prefixes by ascending integer value. -/
theorem C5_natural_sort (l : List ProjectImage) :
    List.Perm (naturalSortImages l) l ∧
    List.Sorted imageLe (naturalSortImages l) ∧
    (∀ c : Option Int,
      (naturalSortImages l).filter (fun im => decide (natural_sort_key im.filename = c)) =
        l.filter (fun im => decide (natural_sort_key im.filename = c))) ∧
    List.Pairwise
      (fun a b => natural_sort_key a.filename = none → natural_sort_key b.filename = none)
      (naturalSortImages l) ∧
    List.Pairwise
      (fun a b => ∀ x y, natural_sort_key a.filename = some x →
        natural_sort_key b.filename = some y → x ≤ y)
      (naturalSortImages l) := by
  have hsorted : List.Sorted imageLe (naturalSortImages l) :=
    List.sorted_insertionSort imageLe l
  refine ⟨List.perm_insertionSort imageLe l, hsorted, ?_, ?_, ?_⟩
  · intro c
    exact filter_insertionSort_key (fun im => natural_sort_key im.filename) imageLe
      (fun a b h => keyLe_refl_of_eq h) c l
  · refine hsorted.imp ?_
    intro a b hab hnone
    unfold imageLe at hab
    rw [hnone] at hab
    cases hk : natural_sort_key b.filename with
    | none => rfl
    | some y => rw [hk] at hab; simp [keyLe] at hab
  · refine hsorted.imp ?_
    intro a b hab x y hx hy
    unfold imageLe at hab
    rw [hx, hy] at hab
    simpa [keyLe] using hab

/-! ### C8: scoped cleanup of the temporary cropped image -/

/-- The `tempsLeft` accounting of one ROI step does not grow when the
`os.remove` of that pass succeeds. -/
theorem tempsLeft_step (filename : String) (total : Nat) (st : WorkerState)
    (p : RoiData × RoiEnv) (hrem : p.2.removeOk = true) :
    (worker_step_roi filename total st p).tempsLeft = st.tempsLeft := by
  have hpass : (roi_pass filename p.1 p.2).tempExists = false := by
    unfold roi_pass cleanup_temp
    cases (roi_pass_body filename p.1 p.2).tempExists <;> simp [hrem]
  unfold worker_step_roi
  cases hres : (roi_pass filename p.1 p.2).result <;> simp [hres, hpass]

theorem tempsLeft_run_rois (cancelled : Nat → Bool) (total : Nat) (filename : String)
    (ps : List (RoiData × RoiEnv)) :
    ∀ st : WorkerState, (∀ p ∈ ps, p.2.removeOk = true) →
      (worker_run_rois cancelled total filename ps st).tempsLeft = st.tempsLeft := by
  induction ps with
  | nil => intro st _; rfl
  | cons p ps ih =>
    intro st hrem
    unfold worker_run_rois
    by_cases h : cancelled st.roiCounter = true
    · simp [h]
    · simp only [h]
      rw [if_neg (by simp [h]), ih _ (fun q hq => hrem q (by simp [hq])),
        tempsLeft_step filename total st p (hrem p (by simp))]

theorem tempsLeft_run_images (cancelled : Nat → Bool) (total : Nat)
    (images : List WorkerImage) :
    ∀ st : WorkerState, (∀ im ∈ images, ∀ p ∈ im.rois, p.2.removeOk = true) →
      ((worker_run_images cancelled total images st).1).tempsLeft = st.tempsLeft := by
  induction images with
  | nil => intro st _; rfl
  | cons img rest ih =>
    intro st hrem
    unfold worker_run_images
    by_cases h : cancelled st.roiCounter = true
    · simp [h]
    · cases hopen : img.openOk with
      | false => simp [h, hopen]
      | true =>
        simp only [h, hopen]
        rw [if_neg (by simp), if_neg (by simp)]
        rw [ih _ (fun im him p hp => hrem im (by simp [him]) p hp)]
        exact tempsLeft_run_rois cancelled total img.filename img.rois _
          (fun p hp => hrem img (by simp) p hp)

/-- C8 (amended): the `finally` clause attempts the deletion of the
temporary cropped file on every exit path of a per-ROI pass — the file
can remain on disk after the pass only when the `os.remove` itself
fails (the source then merely logs a warning).  Whenever the removal
succeeds the file does not exist after the pass on every exit path
(normal success and every error path), the error paths that raise
before the file is created leave nothing regardless, and a batch whose
removals all succeed leaves no temporary file behind (cancellation is
only checked between passes). -/
theorem C8_temp_cleanup :
    (∀ (filename : String) (r : RoiData) (e : RoiEnv),
        e.removeOk = true → (roi_pass filename r e).tempExists = false) ∧
    (∀ (filename : String) (r : RoiData) (e : RoiEnv),
        (roi_pass filename r e).tempExists = true ↔
          (roi_pass_body filename r e).tempExists = true ∧ e.removeOk = false) ∧
    (∀ (filename : String) (r : RoiData) (e : RoiEnv),
        e.roiFound = false ∨ e.cropOk = false →
          (roi_pass filename r e).tempExists = false) ∧
    (∀ (images : List WorkerImage) (cancelled : Nat → Bool),
        (∀ im ∈ images, ∀ p ∈ im.rois, p.2.removeOk = true) →
        (doInBackground images cancelled).1.tempsLeft = 0) := by
  refine ⟨?_, ?_, ?_, ?_⟩
  · intro filename r e hrem
    unfold roi_pass cleanup_temp
    cases (roi_pass_body filename r e).tempExists <;> simp [hrem]
  · intro filename r e
    cases hb : (roi_pass_body filename r e).tempExists <;>
      cases hrem : e.removeOk <;>
        simp [roi_pass, cleanup_temp, hb, hrem]
  · intro filename r e h
    have hb : (roi_pass_body filename r e).tempExists = false := by
      unfold roi_pass_body
      rcases h with h | h
      · simp [h]
      · cases hf : e.roiFound <;> simp [h, hf]
    simp [roi_pass, cleanup_temp, hb]
  · intro images cancelled hrem
    unfold doInBackground
    by_cases h : totalRois images = 0
    · simp [h, initWorkerState]
    · simp only [h, if_neg]
      cases hrun : worker_run_images cancelled (totalRois images) images initWorkerState with
      | mk st err =>
        have := tempsLeft_run_images cancelled (totalRois images) images
          initWorkerState hrem
        rw [hrun] at this
        cases err <;> simp_all [initWorkerState]

/-! ### C7: appending the collected results -/

/-- C7 (amended): on completion the collected result records are
appended to the results table in one operation, after a header row
written only when the file is new or empty; the pre-existing rows are
preserved unchanged as a prefix (append mode, never update in place).
The columns are `filename, roi_name, roi_area, brema_value, cell_count,
total_cell_area` — the source consistently misspells the fourth column
`brema_value` (the claim as stated says `bregma_value`, which is what
the counterexample refutes). -/
theorem C7_done_appends (allResults : List ResultRecord) (fileExists : Bool)
    (old : List (List String)) :
    (allResults = [] → done_append allResults fileExists old = old) ∧
    (∃ tail, done_append allResults fileExists old = old ++ tail) ∧
    (allResults ≠ [] →
      done_append allResults fileExists old =
        old ++ (if !fileExists || old = [] then [resultsDbHeaders] else [])
            ++ allResults.map render_result_row) ∧
    (allResults ≠ [] → fileExists = true → old ≠ [] →
      done_append allResults fileExists old = old ++ allResults.map render_result_row) ∧
    resultsDbHeaders =
      ["filename", "roi_name", "roi_area", "brema_value", "cell_count", "total_cell_area"] := by
  refine ⟨?_, ?_, ?_, ?_, rfl⟩
  · intro h; simp [done_append, h]
  · by_cases h : allResults = []
    · exact ⟨[], by simp [done_append, h]⟩
    · refine ⟨(if !fileExists || old = [] then [resultsDbHeaders] else [])
        ++ allResults.map render_result_row, ?_⟩
      simp [done_append, h, List.append_assoc]
  · intro h; simp [done_append, h]
  · intro h hfe hold
    simp [done_append, h, hfe, hold]

/-- Witness for C7 at concrete inputs: with a nonempty, non-fresh file
the rows are appended with no extra header; with an empty file the
header comes first. -/
theorem C7_witness :
    done_append [⟨"f", "r", 1, "b", 2, 3⟩] true [resultsDbHeaders] =
      [resultsDbHeaders, ["f", "r", "1", "b", "2", "3"]] ∧
    done_append [⟨"f", "r", 1, "b", 2, 3⟩] true [] =
      [resultsDbHeaders, ["f", "r", "1", "b", "2", "3"]] := by
  constructor
  · have h := (C7_done_appends [⟨"f", "r", 1, "b", 2, 3⟩] true [resultsDbHeaders]).2.2.2.1
      (by decide) rfl (by decide)
    rw [h]; rfl
  · have h := (C7_done_appends [⟨"f", "r", 1, "b", 2, 3⟩] true []).2.2.1 (by decide)
    rw [h]; rfl

/-- Counterexample to C7 as stated: the fourth results-table column is
`brema_value`, not `bregma_value`. -/
theorem C7_counterexample :
    done_append [⟨"f", "r", 1, "b", 2, 3⟩] false [] =
      [["filename", "roi_name", "roi_area", "brema_value", "cell_count", "total_cell_area"],
       ["f", "r", "1", "b", "2", "3"]] ∧
    resultsDbHeaders ≠
      ["filename", "roi_name", "roi_area", "bregma_value", "cell_count", "total_cell_area"] := by
  constructor
  · rfl
  · decide

/-! ### C10: the empty batch -/

/-- C10: a batch whose selected images have zero ROIs in total returns
the status string `No ROIs to process.` before opening any image: no
image open, no stage invocation, no progress dispatch, no collected
result, and the subsequent `done` appends nothing to the results
table. -/
theorem C10_no_rois (images : List WorkerImage) (cancelled : Nat → Bool)
    (h : totalRois images = 0) :
    doInBackground images cancelled = (initWorkerState, .ok "No ROIs to process.") ∧
    (doInBackground images cancelled).1.results = [] ∧
    (doInBackground images cancelled).1.opens = 0 ∧
    (doInBackground images cancelled).1.progress = [] ∧
    (doInBackground images cancelled).1.pixelCalls = 0 ∧
    (doInBackground images cancelled).1.objectCalls = 0 ∧
    (∀ (fileExists : Bool) (old : List (List String)),
      done_append (doInBackground images cancelled).1.results fileExists old = old) := by
  have hmain : doInBackground images cancelled = (initWorkerState, .ok "No ROIs to process.") := by
    simp [doInBackground, h]
  refine ⟨hmain, ?_, ?_, ?_, ?_, ?_, ?_⟩ <;> rw [hmain] <;>
    simp [initWorkerState, done_append]

/-- Witness for C10: a selected image with an empty ROI list. -/
theorem C10_witness :
    totalRois [⟨"x.tif", true, []⟩] = 0 ∧
    doInBackground [⟨"x.tif", true, []⟩] (fun _ => false) =
      (initWorkerState, .ok "No ROIs to process.") := by
  constructor
  · rfl
  · exact (C10_no_rois [⟨"x.tif", true, []⟩] (fun _ => false) rfl).1

/-! ### C9: filename / archive-path round trip -/

theorem splitextChars_append (l : List Char) :
    (splitextChars l).1 ++ (splitextChars l).2 = l := by
  unfold splitextChars
  split
  · simp
  · split
    · simp
    · exact List.take_append_drop ..

/-- Splitting off the extension loses nothing: stem plus extension is
the original file name. -/
theorem image_stem_append_ext (f : String) : image_stem f ++ (splitext f).2 = f := by
  apply String.ext
  rw [String.data_append]
  exact splitextChars_append f.data

/-- Undoing the `roi_path` derivation, given the extension that
`os.path.splitext` removed: strip the directory part and the
`_ROIs.zip` suffix from the archive path and put the extension back. -/
def recover_filename (project_path archive_path ext : String) : String :=
  ((archive_path.data.drop (project_path.data.length + "/ROI_Files/".data.length)).take
      (archive_path.data.length - project_path.data.length - "/ROI_Files/".data.length -
        "_ROIs.zip".data.length)).asString ++ ext

theorem data_asString (l : List Char) : l.asString.data = l := rfl

theorem roi_path_data (p f : String) :
    (roi_path p f).data =
      (p.data ++ "/ROI_Files/".data) ++ ((splitextChars f.data).1 ++ "_ROIs.zip".data) := by
  simp [roi_path, image_stem, splitext, String.data_append, data_asString, List.append_assoc]

theorem recover_roi_path (p f : String) :
    recover_filename p (roi_path p f) ((splitext f).2) = f := by
  unfold recover_filename
  have hdrop : (roi_path p f).data.drop (p.data.length + "/ROI_Files/".data.length) =
      (splitextChars f.data).1 ++ "_ROIs.zip".data := by
    rw [roi_path_data,
      show p.data.length + "/ROI_Files/".data.length =
        (p.data ++ "/ROI_Files/".data).length from (List.length_append ..).symm,
      List.drop_left]
  have hamt : (roi_path p f).data.length - p.data.length - "/ROI_Files/".data.length -
      "_ROIs.zip".data.length = (splitextChars f.data).1.length := by
    rw [roi_path_data]
    simp [List.length_append]
  rw [hdrop, hamt, List.take_left]
  exact image_stem_append_ext f

theorem roi_path_inj_of_ext_eq (p f1 f2 : String)
    (hext : (splitext f1).2 = (splitext f2).2)
    (hpath : roi_path p f1 = roi_path p f2) : f1 = f2 := by
  have hd := congrArg String.data hpath
  rw [roi_path_data, roi_path_data] at hd
  have hstem : (splitextChars f1.data).1 = (splitextChars f2.data).1 :=
    List.append_cancel_right (List.append_cancel_left hd)
  have hstem' : image_stem f1 = image_stem f2 := String.ext hstem
  calc f1 = image_stem f1 ++ (splitext f1).2 := (image_stem_append_ext f1).symm
    _ = image_stem f2 ++ (splitext f2).2 := by rw [hstem', hext]
    _ = f2 := image_stem_append_ext f2

/-- C9 (amended): the stem round-trips — two distinct file names with
the same extension always get distinct archive paths, stem plus
extension restores the file name, and the file name is recoverable from
the archive path together with its extension.  (The extension itself is
not recoverable: `a.tif` and `a.tiff` share one archive path, which is
what the counterexample shows, so the round trip needs the extension as
a side input.) -/
theorem C9_stem_roundtrip :
    (∀ p f1 f2 : String, (splitext f1).2 = (splitext f2).2 →
        roi_path p f1 = roi_path p f2 → f1 = f2) ∧
    (∀ f : String, image_stem f ++ (splitext f).2 = f) ∧
    (∀ p f : String, recover_filename p (roi_path p f) ((splitext f).2) = f) :=
  ⟨roi_path_inj_of_ext_eq, image_stem_append_ext, recover_roi_path⟩

/-- Witness for C9 at concrete inputs. -/
theorem C9_witness :
    recover_filename "P" (roi_path "P" "1_a.jpg") ((splitext "1_a.jpg").2) = "1_a.jpg" ∧
    ("a.tif" : String) = "a.tif" := by
  constructor
  · exact C9_stem_roundtrip.2.2 "P" "1_a.jpg"
  · exact C9_stem_roundtrip.1 "P" "a.tif" "a.tif" rfl rfl

/-- Counterexample to C9 as stated: `a.tif` and `a.tiff` are distinct
file names, both with recognized image extensions, yet they derive the
same ROI-archive path — the computation is not lossless over the whole
recognized extension set. -/
theorem C9_counterexample :
    recognizedImage "a.tif" = true ∧ recognizedImage "a.tiff" = true ∧
    ("a.tif" : String) ≠ "a.tiff" ∧
    roi_path "P" "a.tif" = roi_path "P" "a.tiff" := by
  refine ⟨by decide, by decide, by decide, ?_⟩
  decide

/-! ### C2: per-ROI error isolation -/

/-- Whether one per-ROI pass succeeds, as a function of its
environment: the ROI is found, cropping works, and the classification
resolves. -/
def roiPassOkB (e : RoiEnv) : Bool :=
  e.roiFound && e.cropOk && (run_ilastik_classification e.cache e.stages).result.isOk

/-- The result record a successful pass emits. -/
def mkResultRecord (filename : String) (p : RoiData × RoiEnv) : ResultRecord :=
  ⟨filename, p.1.roi_name, p.2.roiArea, p.1.bregma, p.2.cellCount, p.2.totalCellArea⟩

/-- The message a failing pass raises (empty when the pass succeeds). -/
def roiPassErrMsg (filename : String) (p : RoiData × RoiEnv) : String :=
  match (roi_pass filename p.1 p.2).result with
  | .error m => m
  | .ok _ => ""

theorem roi_pass_result_ok (filename : String) (r : RoiData) (e : RoiEnv)
    (h : roiPassOkB e = true) :
    (roi_pass filename r e).result = .ok (mkResultRecord filename (r, e)) := by
  unfold roiPassOkB at h
  simp only [Bool.and_eq_true] at h
  obtain ⟨⟨h1, h2⟩, h3⟩ := h
  unfold roi_pass roi_pass_body
  cases hres : (run_ilastik_classification e.cache e.stages).result with
  | error m => rw [hres] at h3; simp [Except.isOk, Except.toBool] at h3
  | ok v => simp [h1, h2, hres, mkResultRecord]

theorem roi_pass_result_err (filename : String) (r : RoiData) (e : RoiEnv)
    (h : roiPassOkB e = false) :
    (roi_pass filename r e).result = .error (roiPassErrMsg filename (r, e)) := by
  unfold roiPassOkB at h
  unfold roiPassErrMsg roi_pass roi_pass_body
  cases h1 : e.roiFound with
  | false => simp [h1]
  | true =>
    cases h2 : e.cropOk with
    | false => simp [h1, h2]
    | true =>
      rw [h1, h2] at h
      simp only [Bool.true_and] at h
      cases hres : (run_ilastik_classification e.cache e.stages).result with
      | error m => simp [h1, h2, hres]
      | ok v => rw [hres] at h; simp [Except.isOk, Except.toBool] at h

theorem step_roi_results (filename : String) (total : Nat) (st : WorkerState)
    (p : RoiData × RoiEnv) :
    (worker_step_roi filename total st p).results =
      st.results ++ (if roiPassOkB p.2 then [mkResultRecord filename p] else []) := by
  cases h : roiPassOkB p.2 with
  | true => simp [worker_step_roi, roi_pass_result_ok filename p.1 p.2 h]
  | false => simp [worker_step_roi, roi_pass_result_err filename p.1 p.2 h]

theorem step_roi_log (filename : String) (total : Nat) (st : WorkerState)
    (p : RoiData × RoiEnv) :
    (worker_step_roi filename total st p).log =
      st.log ++ (if roiPassOkB p.2 then []
                 else [log_error_entry p.1.roi_name filename (roiPassErrMsg filename p)]) := by
  cases h : roiPassOkB p.2 with
  | true => simp [worker_step_roi, roi_pass_result_ok filename p.1 p.2 h]
  | false => simp [worker_step_roi, roi_pass_result_err filename p.1 p.2 h]

theorem run_rois_results (total : Nat) (filename : String)
    (ps : List (RoiData × RoiEnv)) :
    ∀ st : WorkerState,
      (worker_run_rois (fun _ => false) total filename ps st).results =
        st.results ++ (ps.filter (fun p => roiPassOkB p.2)).map
          (fun p => mkResultRecord filename p) := by
  induction ps with
  | nil => intro st; simp [worker_run_rois]
  | cons p ps ih =>
    intro st
    rw [worker_run_rois, if_neg (by simp), ih, step_roi_results]
    cases h : roiPassOkB p.2 <;> simp [h, List.append_assoc]

theorem run_rois_log (total : Nat) (filename : String)
    (ps : List (RoiData × RoiEnv)) :
    ∀ st : WorkerState,
      (worker_run_rois (fun _ => false) total filename ps st).log =
        st.log ++ (ps.filter (fun p => !roiPassOkB p.2)).map
          (fun p => log_error_entry p.1.roi_name filename (roiPassErrMsg filename p)) := by
  induction ps with
  | nil => intro st; simp [worker_run_rois]
  | cons p ps ih =>
    intro st
    rw [worker_run_rois, if_neg (by simp), ih, step_roi_log]
    cases h : roiPassOkB p.2 <;> simp [h, List.append_assoc]

theorem run_images_status (total : Nat) (images : List WorkerImage) :
    ∀ st : WorkerState, (∀ im ∈ images, im.openOk = true) →
      (worker_run_images (fun _ => false) total images st).2 = none := by
  induction images with
  | nil => intro st _; rfl
  | cons img rest ih =>
    intro st hopen
    rw [worker_run_images, if_neg (by simp)]
    rw [hopen img (by simp)]
    simp only [Bool.not_true]
    rw [if_neg (by simp)]
    exact ih _ (fun im hm => hopen im (by simp [hm]))

theorem run_images_results (total : Nat) (images : List WorkerImage) :
    ∀ st : WorkerState, (∀ im ∈ images, im.openOk = true) →
      (worker_run_images (fun _ => false) total images st).1.results =
        st.results ++ images.flatMap (fun img =>
          (img.rois.filter (fun p => roiPassOkB p.2)).map
            (fun p => mkResultRecord img.filename p)) := by
  induction images with
  | nil => intro st _; simp [worker_run_images]
  | cons img rest ih =>
    intro st hopen
    rw [worker_run_images, if_neg (by simp)]
    rw [hopen img (by simp)]
    simp only [Bool.not_true]
    rw [if_neg (by simp)]
    rw [ih _ (fun im hm => hopen im (by simp [hm]))]
    simp only [run_rois_results]
    simp [List.flatMap_cons, List.append_assoc]

theorem run_images_log (total : Nat) (images : List WorkerImage) :
    ∀ st : WorkerState, (∀ im ∈ images, im.openOk = true) →
      (worker_run_images (fun _ => false) total images st).1.log =
        st.log ++ images.flatMap (fun img =>
          (img.rois.filter (fun p => !roiPassOkB p.2)).map
            (fun p => log_error_entry p.1.roi_name img.filename
              (roiPassErrMsg img.filename p))) := by
  induction images with
  | nil => intro st _; simp [worker_run_images]
  | cons img rest ih =>
    intro st hopen
    rw [worker_run_images, if_neg (by simp)]
    rw [hopen img (by simp)]
    simp only [Bool.not_true]
    rw [if_neg (by simp)]
    rw [ih _ (fun im hm => hopen im (by simp [hm]))]
    simp only [run_rois_log]
    simp [List.flatMap_cons, List.append_assoc]

/-- The number of ROIs in a batch whose pass fails. -/
def batchFailCount (images : List WorkerImage) : Nat :=
  (images.map (fun img => (img.rois.filter (fun p => !roiPassOkB p.2)).length)).sum

theorem batchFailCount_le (images : List WorkerImage) :
    batchFailCount images ≤ totalRois images := by
  induction images with
  | nil => simp [batchFailCount, totalRois]
  | cons img rest ih =>
    simp only [batchFailCount, totalRois, List.map_cons, List.sum_cons] at ih ⊢
    have := List.length_filter_le (fun p => !roiPassOkB p.2) img.rois
    omega

theorem collected_results_length (images : List WorkerImage) :
    (images.flatMap (fun img =>
      (img.rois.filter (fun p => roiPassOkB p.2)).map
        (fun p => mkResultRecord img.filename p))).length
      + batchFailCount images = totalRois images := by
  induction images with
  | nil => simp [batchFailCount, totalRois]
  | cons img rest ih =>
    simp only [batchFailCount, totalRois, List.map_cons, List.sum_cons,
      List.flatMap_cons, List.length_append, List.length_map] at ih ⊢
    have hsplit : img.rois.length = (img.rois.filter (fun p => roiPassOkB p.2)).length +
        (img.rois.filter (fun p => !roiPassOkB p.2)).length :=
      List.length_eq_length_filter_add _
    omega

/-- C2: any error inside one ROI pass (ROI not found, crop failure,
classifier with no output) is caught, logged with the ROI and image
names, and only that ROI's result is omitted — the loop continues, the
batch finishes normally, and with exactly one failing ROI among R the
batch collects exactly R-1 result records. -/
theorem C2_roi_error_isolation (images : List WorkerImage)
    (hopen : ∀ im ∈ images, im.openOk = true)
    (hfail : batchFailCount images = 1) :
    ((doInBackground images (fun _ => false)).1.results).length = totalRois images - 1 ∧
    (doInBackground images (fun _ => false)).2.isOk = true ∧
    (∀ im ∈ images, ∀ p ∈ im.rois, roiPassOkB p.2 = false →
      ∃ msg, log_error_entry p.1.roi_name im.filename msg ∈
        (doInBackground images (fun _ => false)).1.log) := by
  have hne : ¬ (totalRois images = 0) := by
    have hle := batchFailCount_le images
    omega
  have hstat := run_images_status (totalRois images) images initWorkerState hopen
  have hres := run_images_results (totalRois images) images initWorkerState hopen
  have hlog := run_images_log (totalRois images) images initWorkerState hopen
  cases hrun : worker_run_images (fun _ => false) (totalRois images) images initWorkerState with
  | mk st err =>
    rw [hrun] at hstat hres hlog
    simp only at hstat hres hlog
    subst hstat
    have hdo : doInBackground images (fun _ => false) =
        (st, .ok ("Batch processing complete. " ++ toString st.roiCounter ++
          " ROIs processed.")) := by
      unfold doInBackground
      rw [if_neg hne, hrun]
    rw [hdo]
    refine ⟨?_, by simp [Except.isOk, Except.toBool], ?_⟩
    · simp only [hres, initWorkerState, List.nil_append]
      have := collected_results_length images
      omega
    · intro im him p hp hpfail
      refine ⟨roiPassErrMsg im.filename p, ?_⟩
      simp only [hlog, initWorkerState, List.nil_append]
      rw [List.mem_flatMap]
      refine ⟨im, him, ?_⟩
      rw [List.mem_map]
      exact ⟨p, List.mem_filter.mpr ⟨hp, by simp [hpfail]⟩, rfl⟩

/-- Witness for C2: two images, three ROIs, the middle ROI's name is
missing from its archive; the batch yields two result records. -/
theorem C2_witness :
    batchFailCount
      [⟨"1_a.tif", true, [(⟨"cortex", "-1.2", "Defined"⟩,
          ⟨true, true, ⟨none, none⟩, ⟨some 1, some 2⟩, 50, 7, 21, true⟩),
        (⟨"striatum", "0.0", "Defined"⟩,
          ⟨false, true, ⟨none, none⟩, ⟨some 1, some 2⟩, 50, 7, 21, true⟩)]⟩,
       ⟨"2_b.tif", true, [(⟨"hipp", "1.5", "Defined"⟩,
          ⟨true, true, ⟨none, none⟩, ⟨some 1, some 2⟩, 40, 3, 9, true⟩)]⟩] = 1 ∧
    ((doInBackground
      [⟨"1_a.tif", true, [(⟨"cortex", "-1.2", "Defined"⟩,
          ⟨true, true, ⟨none, none⟩, ⟨some 1, some 2⟩, 50, 7, 21, true⟩),
        (⟨"striatum", "0.0", "Defined"⟩,
          ⟨false, true, ⟨none, none⟩, ⟨some 1, some 2⟩, 50, 7, 21, true⟩)]⟩,
       ⟨"2_b.tif", true, [(⟨"hipp", "1.5", "Defined"⟩,
          ⟨true, true, ⟨none, none⟩, ⟨some 1, some 2⟩, 40, 3, 9, true⟩)]⟩]
      (fun _ => false)).1.results).length =
      totalRois
        [⟨"1_a.tif", true, [(⟨"cortex", "-1.2", "Defined"⟩,
            ⟨true, true, ⟨none, none⟩, ⟨some 1, some 2⟩, 50, 7, 21, true⟩),
          (⟨"striatum", "0.0", "Defined"⟩,
            ⟨false, true, ⟨none, none⟩, ⟨some 1, some 2⟩, 50, 7, 21, true⟩)]⟩,
         ⟨"2_b.tif", true, [(⟨"hipp", "1.5", "Defined"⟩,
            ⟨true, true, ⟨none, none⟩, ⟨some 1, some 2⟩, 40, 3, 9, true⟩)]⟩] - 1 := by
  constructor
  · decide
  · exact (C2_roi_error_isolation _ (by decide) (by decide)).1

/-! ### C6: error behaviour of `load` -/

theorem create_one_path_ok_of_not_csv_fail (o : FsOracle) (k : PathKey) (log : List String)
    (h : isCsvKey k = true → o.pathExists k = true ∨ o.createFails k = false) :
    ∃ log1, create_one_path o k log = .ok log1 := by
  unfold create_one_path
  by_cases he : o.pathExists k = true
  · exact ⟨log, by simp [he]⟩
  · cases hcsv : isCsvKey k with
    | false =>
      cases hf : o.createFails k with
      | true => exact ⟨log ++ ["Error creating directory"], by simp [he, hcsv, hf]⟩
      | false => exact ⟨log ++ ["Created missing project directory"], by simp [he, hcsv, hf]⟩
    | true =>
      have := h hcsv
      rcases this with h1 | h1
      · exact absurd h1 he
      · refine ⟨log ++ ["Created missing project database"], ?_⟩
        simp [he, hcsv, h1]

theorem create_one_path_err (o : FsOracle) (k : PathKey) (log : List String)
    (he : o.pathExists k = false) (hcsv : isCsvKey k = true)
    (hf : o.createFails k = true) :
    create_one_path o k log = .error .ioError := by
  simp [create_one_path, he, hcsv, hf]

theorem verify_aux_ok_iff (o : FsOracle) (ks : List PathKey) :
    ∀ log : List String,
      (∃ log1, verify_and_create_dirs_aux o ks log = .ok log1) ↔
        (∀ k ∈ ks, isCsvKey k = true → o.pathExists k = true ∨ o.createFails k = false) := by
  induction ks with
  | nil => intro log; simp [verify_and_create_dirs_aux]
  | cons k ks ih =>
    intro log
    constructor
    · rintro ⟨log1, hok⟩
      unfold verify_and_create_dirs_aux at hok
      cases hcreate : create_one_path o k log with
      | error e => rw [hcreate] at hok; cases hok
      | ok log2 =>
        rw [hcreate] at hok
        intro k1 hk1 hcsv1
        rcases List.mem_cons.mp hk1 with rfl | hk1
        · by_contra hcontra
          push_neg at hcontra
          obtain ⟨hex, hfail⟩ := hcontra
          rw [create_one_path_err o k1 log (by simpa using hex) hcsv1
            (by simpa using hfail)] at hcreate
          cases hcreate
        · exact ((ih log2).mp ⟨log1, hok⟩) k1 hk1 hcsv1
    · intro hcond
      obtain ⟨log2, hok⟩ := create_one_path_ok_of_not_csv_fail o k log
        (hcond k (by simp))
      obtain ⟨log1, hok1⟩ := (ih log2).mpr (fun k1 hk1 => hcond k1 (by simp [hk1]))
      exact ⟨log1, by unfold verify_and_create_dirs_aux; rw [hok]; exact hok1⟩

theorem parseRows_keyError {α : Type} (parse : RawRow → Except PyErr α)
    (hparse : ∀ row : RawRow, rowGet row "filename" = none → parse row = .error .keyError)
    (hparse2 : ∀ row : RawRow, ∀ e, parse row = .error e → e = .keyError)
    (rows : List RawRow) (row : RawRow) (hmem : row ∈ rows)
    (hnone : rowGet row "filename" = none) :
    parseRows parse rows = .error .keyError := by
  induction rows with
  | nil => cases hmem
  | cons r rs ih =>
    rcases List.mem_cons.mp hmem with heq | hmem1
    · unfold parseRows
      rw [hparse r (heq ▸ hnone)]
    · unfold parseRows
      cases hr : parse r with
      | error e => rw [hparse2 r e hr]
      | ok a => rw [ih hmem1]

theorem parse_status_row_missing (row : RawRow) (h : rowGet row "filename" = none) :
    parse_status_row row = .error .keyError := by
  simp [parse_status_row, rowFilename, h]

theorem parse_status_row_error (row : RawRow) (e : PyErr)
    (h : parse_status_row row = .error e) : e = .keyError := by
  unfold parse_status_row rowFilename at h
  cases hg : rowGet row "filename" with
  | none => rw [hg] at h; cases h; rfl
  | some v => rw [hg] at h; cases h

theorem parse_roi_row_missing (row : RawRow) (h : rowGet row "filename" = none) :
    parse_roi_row row = .error .keyError := by
  simp [parse_roi_row, rowFilename, h]

theorem parse_roi_row_error (row : RawRow) (e : PyErr)
    (h : parse_roi_row row = .error e) : e = .keyError := by
  unfold parse_roi_row rowFilename at h
  cases hg : rowGet row "filename" with
  | none => rw [hg] at h; cases h; rfl
  | some v => rw [hg] at h; cases h

/-- C6 (amended): `Project.__init__` raises no exception for a failed
*directory* creation — the `OSError` from `os.makedirs` is caught and a
log line written — but it is not exception-free: an `IOError` from
`open` while creating a missing CSV table is not caught by
`except OSError` under Jython 2 and propagates out of construction, and
a CSV row whose columns lack `filename` makes `row['filename']` raise
`KeyError`, which also propagates (no row is skipped). -/
theorem C6_load_error_behaviour :
    (∀ o : FsOracle,
      (∃ log, verify_and_create_dirs o = .ok log) ↔
        (∀ k ∈ pathKeys, isCsvKey k = true →
          o.pathExists k = true ∨ o.createFails k = false)) ∧
    (∀ (o : FsOracle) (k : PathKey) (log : List String),
      o.pathExists k = false → isCsvKey k = false → o.createFails k = true →
        create_one_path o k log = .ok (log ++ ["Error creating directory"])) ∧
    (∀ (rows : List RawRow) (row : RawRow), row ∈ rows →
      rowGet row "filename" = none →
        parseRows parse_status_row rows = .error .keyError ∧
        parseRows parse_roi_row rows = .error .keyError) ∧
    (∀ (o : FsOracle) (rawS rawR : List RawRow) (zip : ZipStore) (files : List String) (e : PyErr),
      verify_and_create_dirs o = .error e →
        project_init o rawS rawR zip files = .error e) := by
  refine ⟨?_, ?_, ?_, ?_⟩
  · intro o
    exact verify_aux_ok_iff o pathKeys []
  · intro o k log he hcsv hf
    simp [create_one_path, he, hcsv, hf]
  · intro rows row hmem hnone
    exact ⟨parseRows_keyError parse_status_row parse_status_row_missing
        parse_status_row_error rows row hmem hnone,
      parseRows_keyError parse_roi_row parse_roi_row_missing
        parse_roi_row_error rows row hmem hnone⟩
  · intro o rawS rawR zip files e herr
    unfold project_init
    rw [herr]

/-- Witness for C6 at concrete inputs: with every path present the
verification succeeds, and a missing `filename` column propagates a
`KeyError` out of the table parse. -/
theorem C6_witness :
    (∃ log, verify_and_create_dirs allExistsOracle = .ok log) ∧
    parseRows parse_status_row [[("status", "New")]] = .error .keyError := by
  constructor
  · exact (C6_load_error_behaviour.1 allExistsOracle).mpr (by decide)
  · exact (C6_load_error_behaviour.2.2.1 [[("status", "New")]] [("status", "New")]
      (by decide) (by decide)).1

/-- Counterexample to C6 as stated: an `IOError` raised while creating
a missing CSV table propagates out of project construction (the
`except OSError` clause of Python 2 does not catch `IOError`), and a
status-table row lacking the `filename` key raises `KeyError` instead
of being skipped. -/
theorem C6_counterexample :
    project_init ⟨fun k => !isCsvKey k, fun _ => true⟩ [] [] (fun _ => none) [] =
      .error .ioError ∧
    project_init allExistsOracle [[("status", "New")]] [] (fun _ => none) [] =
      .error .keyError := by
  constructor
  · rfl
  · rfl

/-! ### C3: sync / load round trip -/

theorem parse_render_status (row : String × String) :
    parse_status_row (render_status_row row) = .ok row := rfl

theorem parse_render_roi (row : String × RoiData) :
    parse_roi_row (render_roi_row row) = .ok row := rfl

theorem parseRows_render {α : Type} (parse : RawRow → Except PyErr α) (render : α → RawRow)
    (h : ∀ row, parse (render row) = .ok row) :
    ∀ rows : List α, parseRows parse (rows.map render) = .ok rows := by
  intro rows
  induction rows with
  | nil => rfl
  | cons row rest ih =>
    rw [List.map_cons]
    unfold parseRows
    rw [h row, ih]

theorem any_filename_eq_false (acc : List ProjectImage) (fn : String)
    (h : fn ∉ acc.map (fun a => a.filename)) :
    acc.any (fun im => im.filename = fn) = false := by
  rw [List.any_eq_false]
  intro im him hcontra
  exact h (List.mem_map.mpr ⟨im, him, by simpa using hcontra⟩)

theorem any_filename_eq_true (m : List ProjectImage) (fn : String)
    (h : fn ∈ m.map (fun a => a.filename)) :
    m.any (fun im => im.filename = fn) = true := by
  rw [List.any_eq_true]
  obtain ⟨im, him, heq⟩ := List.mem_map.mp h
  exact ⟨im, him, by simp [heq]⟩

theorem foldl_apply_status (images : List ProjectImage) :
    ∀ acc : List ProjectImage,
      (∀ im ∈ images, im.filename ∉ acc.map (fun a => a.filename)) →
      (images.map (fun im => im.filename)).Nodup →
      (sync_status_rows images).foldl apply_status_row acc =
        acc ++ images.map (fun im => { im with rois := [] }) := by
  induction images with
  | nil => intro acc _ _; simp [sync_status_rows]
  | cons im rest ih =>
    intro acc hacc hnd
    rw [List.map_cons, List.nodup_cons] at hnd
    have hstep : apply_status_row acc (im.filename, im.status) =
        acc ++ [{ im with rois := [] }] := by
      unfold apply_status_row
      rw [any_filename_eq_false acc im.filename (hacc im (by simp))]
      rfl
    have hrows : sync_status_rows (im :: rest) =
        (im.filename, im.status) :: sync_status_rows rest := rfl
    have hmem2 : ∀ im1 ∈ rest,
        im1.filename ∉
          List.map (fun a : ProjectImage => a.filename) (acc ++ [{ im with rois := [] }]) := by
      intro im1 him1
      rw [List.map_append]
      intro hmem
      rcases List.mem_append.mp hmem with h1 | h1
      · exact hacc im1 (by simp [him1]) h1
      · simp at h1
        exact hnd.1 (h1 ▸ List.mem_map.mpr ⟨im1, him1, rfl⟩)
    rw [hrows, List.foldl_cons, hstep, ih _ hmem2 hnd.2, List.append_assoc]
    rfl

theorem foldl_apply_roi (rows : List (String × RoiData)) :
    ∀ m : List ProjectImage,
      (∀ row ∈ rows, row.1 ∈ m.map (fun im => im.filename)) →
      rows.foldl apply_roi_row m =
        m.map (fun im => { im with
          rois := im.rois ++ (rows.filter (fun row => row.1 = im.filename)).map
            (fun row => row.2) }) := by
  induction rows with
  | nil =>
    intro m _
    simp only [List.foldl_nil, List.filter_nil, List.map_nil, List.append_nil]
    exact (List.map_id'' (fun im => rfl) m).symm
  | cons row rows ih =>
    intro m hmem
    have hstep : apply_roi_row m row =
        m.map (fun im => if im.filename = row.1
          then { im with rois := im.rois ++ [row.2] } else im) := by
      unfold apply_roi_row
      rw [any_filename_eq_true m row.1 (hmem row (by simp))]
      simp
    have hnames : (m.map (fun im => if im.filename = row.1
        then { im with rois := im.rois ++ [row.2] } else im)).map
          (fun im => im.filename) = m.map (fun im => im.filename) := by
      rw [List.map_map]
      refine List.map_congr_left ?_
      intro im _
      by_cases h : im.filename = row.1 <;> simp [h]
    rw [List.foldl_cons, hstep,
      ih _ (fun r hr => by rw [hnames]; exact hmem r (by simp [hr])), List.map_map]
    refine List.map_congr_left ?_
    intro im _
    by_cases h : im.filename = row.1
    · simp only [Function.comp_apply, if_pos h]
      have hsel : (decide (row.1 = im.filename)) = true := by simp [h]
      simp [List.filter_cons, hsel, List.append_assoc]
    · simp only [Function.comp_apply, if_neg h]
      have hsel : (decide (row.1 = im.filename)) = false := by
        simp
        exact fun he => h he.symm
      simp [List.filter_cons, hsel]

theorem mem_sync_roi_rows (images : List ProjectImage) (row : String × RoiData)
    (h : row ∈ sync_roi_rows images) : row.1 ∈ images.map (fun im => im.filename) := by
  rw [sync_roi_rows_eq] at h
  obtain ⟨im, him, hrow⟩ := List.mem_flatMap.mp h
  obtain ⟨r, _, heq⟩ := List.mem_map.mp hrow
  exact List.mem_map.mpr ⟨im, him, by rw [← heq]⟩

theorem filter_sync_roi_rows (images : List ProjectImage) :
    (images.map (fun im => im.filename)).Nodup →
    ∀ im ∈ images,
      (sync_roi_rows images).filter (fun row => row.1 = im.filename) =
        im.rois.map (fun r => (im.filename, r)) := by
  induction images with
  | nil => intro _ im him; cases him
  | cons im0 rest ih =>
    intro hnd im him
    rw [List.map_cons, List.nodup_cons] at hnd
    have hrows : sync_roi_rows (im0 :: rest) =
        (if im0.rois = [] then [] else im0.rois.map (fun r => (im0.filename, r)))
          ++ sync_roi_rows rest := rfl
    rcases List.mem_cons.mp him with heq | him1
    · subst heq
      rw [hrows, List.filter_append]
      have htail : (sync_roi_rows rest).filter (fun row => row.1 = im.filename) = [] := by
        rw [List.filter_eq_nil_iff]
        intro row hrow
        have := mem_sync_roi_rows rest row hrow
        simp only [decide_eq_true_eq]
        intro hcontra
        exact hnd.1 (hcontra ▸ this)
      rw [htail, List.append_nil]
      by_cases hr : im.rois = []
      · simp [hr]
      · rw [if_neg hr, List.filter_map]
        have : ((fun row : String × RoiData => decide (row.1 = im.filename)) ∘
            (fun r => (im.filename, r))) = fun _ => true := by
          funext r; simp
        rw [this, List.filter_true]
    · have hhead : (if im0.rois = [] then []
          else im0.rois.map (fun r => (im0.filename, r))).filter
            (fun row => row.1 = im.filename) = [] := by
        rw [List.filter_eq_nil_iff]
        intro row hrow
        have hrow1 : row.1 = im0.filename := by
          rcases Decidable.em (im0.rois = []) with hc | hc
          · rw [if_pos hc] at hrow; cases hrow
          · rw [if_neg hc] at hrow
            obtain ⟨r, _, heq⟩ := List.mem_map.mp hrow
            rw [← heq]
        simp only [decide_eq_true_eq]
        intro hcontra
        refine hnd.1 ?_
        rw [← hrow1, hcontra]
        exact List.mem_map.mpr ⟨im, him1, rfl⟩
      rw [hrows, List.filter_append, hhead, List.nil_append]
      exact ih hnd.2 im him1

theorem populate_rois_id (zip : ZipStore) (im : ProjectImage)
    (h : im.rois = [] → zip (image_stem im.filename) = none) :
    populate_rois_from_zip zip im = im := by
  unfold populate_rois_from_zip
  cases hz : zip (image_stem im.filename) with
  | none => rfl
  | some names =>
    by_cases hr : im.rois = []
    · rw [h hr] at hz; cases hz
    · simp [hr]

theorem scan_for_new_images_id (zip : ZipStore) (files : List String)
    (m : List ProjectImage)
    (h : ∀ f ∈ files, recognizedImage f = true → f ∈ m.map (fun im => im.filename)) :
    scan_for_new_images zip files m = m := by
  have hfil : (sortStrings files).filter
      (fun f => recognizedImage f &&
        !((m.map (fun im => im.filename)).contains f)) = [] := by
    rw [List.filter_eq_nil_iff]
    intro f hf
    have hmemf : f ∈ files :=
      (List.perm_insertionSort
        (fun a b : String => charListLe a.data b.data = true) files).mem_iff.mp hf
    cases hrec : recognizedImage f with
    | false => simp [hrec]
    | true =>
      obtain ⟨im, him, heq⟩ := List.mem_map.mp (h f hmemf hrec)
      simp only [hrec, Bool.true_and, Bool.not_eq_true']
      rw [List.contains_eq_any_beq]
      rw [List.any_eq_false]
      push_neg
      exact ⟨im.filename, List.mem_map.mpr ⟨im, him, rfl⟩, by simp [heq]⟩
  simp only [scan_for_new_images]
  rw [hfil]
  simp

/-- C3 (amended): `sync_project_db` followed by `Project.__init__` on
the same root directory restores the in-memory model — same images in
the same order with the same statuses and the same ROI
name/bregma/status records — provided the file names are distinct, the
model is in the canonical order produced by loading (the stable
natural-key sort of the filename-sorted list), no image with an empty
ROI list has an archive file on disk (otherwise the load backfills ROI
records the model did not have), and the images directory holds no
recognized file missing from the model (otherwise the load adds
Untracked entries). -/
theorem C3_sync_load_roundtrip (images : List ProjectImage) (zip : ZipStore)
    (files : List String)
    (hne : images ≠ [])
    (hnd : (images.map (fun im => im.filename)).Nodup)
    (hzip : ∀ im ∈ images, im.rois = [] → zip (image_stem im.filename) = none)
    (hscan : ∀ f ∈ files, recognizedImage f = true →
      f ∈ images.map (fun im => im.filename))
    (horder : naturalSortImages (filenameSortImages images) = images) :
    project_init allExistsOracle
      ((sync_status_rows images).map render_status_row)
      ((sync_roi_rows images).map render_roi_row) zip files = .ok images := by
  have hver : verify_and_create_dirs allExistsOracle = .ok [] := rfl
  have hstep : project_init allExistsOracle
      ((sync_status_rows images).map render_status_row)
      ((sync_roi_rows images).map render_roi_row) zip files =
      .ok (naturalSortImages (scan_for_new_images zip files
        (load_project_db (sync_status_rows images) (sync_roi_rows images) zip))) := by
    unfold project_init
    rw [hver, parseRows_render parse_status_row render_status_row parse_render_status,
      parseRows_render parse_roi_row render_roi_row parse_render_roi]
  rw [hstep]
  have hload : load_project_db (sync_status_rows images) (sync_roi_rows images) zip =
      filenameSortImages images := by
    unfold load_project_db
    rw [foldl_apply_status images [] (by simp) hnd, List.nil_append]
    have hmemrows : ∀ row ∈ sync_roi_rows images,
        row.1 ∈ (images.map (fun im => { im with rois := ([] : List RoiData) })).map
          (fun im => im.filename) := by
      intro row hrow
      rw [List.map_map]
      simpa using mem_sync_roi_rows images row hrow
    rw [foldl_apply_roi (sync_roi_rows images) _ hmemrows, List.map_map, List.map_map]
    have hpt : ∀ im ∈ images,
        ((populate_rois_from_zip zip ∘
          (fun im => { im with
              rois := im.rois ++
                ((sync_roi_rows images).filter (fun row => row.1 = im.filename)).map
                  (fun row => row.2) })) ∘
            (fun im => { im with rois := ([] : List RoiData) })) im = im := by
      intro im him
      have hfil := filter_sync_roi_rows images hnd im him
      simp only [Function.comp_apply, hfil, List.map_map, List.nil_append]
      have hsnd : ((fun row : String × RoiData => row.2) ∘ fun r => (im.filename, r)) =
          fun r => r := rfl
      rw [hsnd, List.map_id']
      exact populate_rois_id zip im (hzip im him)
    rw [List.map_congr_left hpt, List.map_id']
  rw [hload]
  have hperm := List.perm_insertionSort filenameLe images
  have hscan2 : ∀ f ∈ files, recognizedImage f = true →
      f ∈ (filenameSortImages images).map (fun im => im.filename) := by
    intro f hf hrec
    obtain ⟨im, him, heq⟩ := List.mem_map.mp (hscan f hf hrec)
    exact List.mem_map.mpr ⟨im, hperm.mem_iff.mpr him, heq⟩
  rw [scan_for_new_images_id zip files (filenameSortImages images) hscan2, horder]

/-- Witness for C3: a two-image project in canonical order — one image
with a single ROI record, one with none — with no archive files and an
empty images directory. -/
theorem C3_witness :
    project_init allExistsOracle
      ((sync_status_rows [⟨"1_a.tif", [⟨"cortex", "-1.2", "Defined"⟩], "Finalized"⟩,
          ⟨"foo.tif", [], "New"⟩]).map render_status_row)
      ((sync_roi_rows [⟨"1_a.tif", [⟨"cortex", "-1.2", "Defined"⟩], "Finalized"⟩,
          ⟨"foo.tif", [], "New"⟩]).map render_roi_row)
      (fun _ => none) [] =
      .ok [⟨"1_a.tif", [⟨"cortex", "-1.2", "Defined"⟩], "Finalized"⟩,
           ⟨"foo.tif", [], "New"⟩] := by
  refine C3_sync_load_roundtrip _ _ _ (by decide) (by decide) ?_ ?_ (by decide)
  · intro im _ _
    rfl
  · intro f hf
    cases hf

/-- Counterexample to C3 as stated: for a model that is not in the
canonical natural-key order the round trip re-sorts the images, so the
loaded model differs from the synced one (`foo.tif` before `1_a.tif`
comes back as `1_a.tif` before `foo.tif`). -/
theorem C3_counterexample :
    project_init allExistsOracle
      ((sync_status_rows [⟨"foo.tif", [], "New"⟩, ⟨"1_a.tif", [], "Finalized"⟩]).map
        render_status_row)
      ((sync_roi_rows [⟨"foo.tif", [], "New"⟩, ⟨"1_a.tif", [], "Finalized"⟩]).map
        render_roi_row)
      (fun _ => none) [] ≠
      .ok [⟨"foo.tif", [], "New"⟩, ⟨"1_a.tif", [], "Finalized"⟩] := by
  decide

/-- Witness for C4 at a concrete project. -/
theorem C4_witness :
    sync_project_db [⟨"1_a.tif", [⟨"cortex", "-1.2", "Defined"⟩], "Finalized"⟩] true true =
      (true && true) :=
  (C4_sync_rewrites [⟨"1_a.tif", [⟨"cortex", "-1.2", "Defined"⟩], "Finalized"⟩] true true).1

/-- Witness for C5 at a concrete image list. -/
theorem C5_witness :
    List.Sorted imageLe
      (naturalSortImages [⟨"foo.tif", [], "New"⟩, ⟨"1_a.tif", [], "New"⟩]) :=
  (C5_natural_sort [⟨"foo.tif", [], "New"⟩, ⟨"1_a.tif", [], "New"⟩]).2.1

/-- Witness for C8 at a concrete pass and batch whose removals
succeed. -/
theorem C8_witness :
    (roi_pass "1_a.tif" ⟨"cortex", "-1.2", "Defined"⟩
      ⟨true, true, ⟨none, none⟩, ⟨some 1, some 2⟩, 50, 7, 21, true⟩).tempExists = false ∧
    (doInBackground [⟨"1_a.tif", true, [(⟨"cortex", "-1.2", "Defined"⟩,
        ⟨true, true, ⟨none, none⟩, ⟨some 1, some 2⟩, 50, 7, 21, true⟩)]⟩]
      (fun _ => false)).1.tempsLeft = 0 := by
  constructor
  · exact C8_temp_cleanup.1 "1_a.tif" ⟨"cortex", "-1.2", "Defined"⟩
      ⟨true, true, ⟨none, none⟩, ⟨some 1, some 2⟩, 50, 7, 21, true⟩ rfl
  · exact C8_temp_cleanup.2.2.2
      [⟨"1_a.tif", true, [(⟨"cortex", "-1.2", "Defined"⟩,
        ⟨true, true, ⟨none, none⟩, ⟨some 1, some 2⟩, 50, 7, 21, true⟩)]⟩]
      (fun _ => false) (by decide)

/-- Counterexample to C8 as stated: when the `os.remove` of the
`finally` clause fails (the except branch at the end of the per-ROI
loop), the source only logs a warning and the temporary cropped file
still exists after the pass completes — even on the normal success
path.  So the file is not guaranteed to be gone on every exit path. -/
theorem C8_counterexample :
    (roi_pass "1_a.tif" ⟨"cortex", "-1.2", "Defined"⟩
      ⟨true, true, ⟨none, none⟩, ⟨some 1, some 2⟩, 50, 7, 21, false⟩).result.isOk = true ∧
    (roi_pass "1_a.tif" ⟨"cortex", "-1.2", "Defined"⟩
      ⟨true, true, ⟨none, none⟩, ⟨some 1, some 2⟩, 50, 7, 21, false⟩).tempExists = true := by
  decide
